import Mathlib

/-!
Verification development for the Attractor pipeline core
(`attractor/core/{graph,conditions,context,outcome,engine}.py`).

The Python source is shallowly embedded: dictionaries become association
lists with replace-or-append insertion (preserving CPython's key-order
semantics), parsed attribute values become the `AttrValue` inductive,
Python `float` literals are represented exactly as rationals, and the
engine's `while True` loop becomes a fuel-indexed step function.  External
collaborators (node handlers, the guard-expression evaluator invoked by
the engine, the DOT tokenizer) are parameters of the definitions, matching
the handler/evaluator boundary of the code.
-/

namespace Attractor

/-- Parsed attribute values produced by `graph._parse_value` and stored in
nodes, edges, graph attributes and the run context.  Python floats are
modelled exactly as rationals (decimal literals are exact). -/
inductive AttrValue where
  | str (s : String)
  | bool (b : Bool)
  | int (n : Int)
  | float (q : ℚ)
  | duration (value : Int) (unit : String)
  deriving DecidableEq, Repr

/-- Python truthiness (`bool(x)`) for the plain-data values of this model.
A `Duration` dataclass instance has no `__bool__`/`__len__`, hence truthy. -/
def truthy : AttrValue → Bool
  | .str s => s ≠ ""
  | .bool b => b
  | .int n => n ≠ 0
  | .float q => q ≠ 0
  | .duration _ _ => true

/-- `bool(d.get(key))` for an optional attribute: `None` is falsy. -/
def truthyOpt : Option AttrValue → Bool
  | some v => truthy v
  | none => false

/-- Decimal rendering of an integer, as Python `str(int)`. -/
def intRepr (n : Int) : String := toString n

/-- Python `str()` on the plain-data values of this model.  The rendering
of a float is a modelling choice (exact rational shown); the engine only
applies `str` to retry targets and labels, which are strings in practice. -/
def pyStr : AttrValue → String
  | .str s => s
  | .bool true => "True"
  | .bool false => "False"
  | .int n => intRepr n
  | .float q => toString q
  | .duration v u => "Duration(value=" ++ intRepr v ++ ", unit=" ++ u ++ ")"

/-- Python `int(x)` on a plain-data value; `none` models the raised
`ValueError`/`TypeError`. -/
def pyInt : AttrValue → Option Int
  | .int n => some n
  | .bool true => some 1
  | .bool false => some 0
  | .float q => some (q.num / q.den)
  | .str _ => none
  | .duration _ _ => none

/-- Association-list insertion with CPython dict semantics: an existing
key is updated in place, a new key is appended. -/
def dictInsert {α : Type} (k : String) (v : α) : List (String × α) → List (String × α)
  | [] => [(k, v)]
  | (k', v') :: rest => if k' = k then (k, v) :: rest else (k', v') :: dictInsert k v rest

theorem lookup_dictInsert_self {α : Type} (k : String) (v : α) (l : List (String × α)) :
    (dictInsert k v l).lookup k = some v := by
  induction l with
  | nil => simp [dictInsert, List.lookup]
  | cons hd tl ih =>
    obtain ⟨k', v'⟩ := hd
    by_cases h : k' = k
    · simp [dictInsert, h, List.lookup]
    · have hbe : (k == k') = false := beq_eq_false_iff_ne.mpr (Ne.symm h)
      simp [dictInsert, h, List.lookup, hbe, ih]

theorem lookup_dictInsert_ne {α : Type} (k k' : String) (v : α) (l : List (String × α))
    (h : k' ≠ k) : (dictInsert k v l).lookup k' = l.lookup k' := by
  have hbe : (k' == k) = false := beq_eq_false_iff_ne.mpr h
  induction l with
  | nil => simp [dictInsert, List.lookup, hbe]
  | cons hd tl ih =>
    obtain ⟨k₀, v₀⟩ := hd
    by_cases h0 : k₀ = k
    · subst h0
      simp [dictInsert, List.lookup, hbe]
    · simp only [dictInsert, if_neg h0, List.lookup, ih]

/-- The run context (`Context._values`): a dict from string keys to values.
The lock is irrelevant in the single-threaded engine model. -/
abbrev Ctx := List (String × AttrValue)

/-- `Context.set`. -/
def ctxSet (c : Ctx) (k : String) (v : AttrValue) : Ctx := dictInsert k v c

/-- `Context.update`: apply entries in order, later write wins per key. -/
def ctxUpdate (c : Ctx) (entries : List (String × AttrValue)) : Ctx :=
  entries.foldl (fun acc kv => ctxSet acc kv.1 kv.2) c

/-- Attribute mapping of a node, edge or graph. -/
abbrev Attrs := List (String × AttrValue)

/-- `NodeSpec`: node id plus parsed attributes. -/
structure NodeSpec where
  id : String
  attrs : Attrs
  deriving DecidableEq, Repr

/-- `EdgeSpec`: source, target and parsed attributes. -/
structure EdgeSpec where
  source : String
  target : String
  attrs : Attrs
  deriving DecidableEq, Repr

/-- `SHAPE_TYPE_MAP`. -/
def SHAPE_TYPE_MAP : List (String × String) :=
  [("Mdiamond", "start"), ("Msquare", "exit"), ("box", "codergen"),
   ("hexagon", "wait.human"), ("diamond", "conditional"), ("component", "parallel"),
   ("tripleoctagon", "parallel.fan_in"), ("parallelogram", "tool"),
   ("house", "stack.manager_loop")]

/-- `NodeSpec.handler_type`: explicit truthy `type` attribute wins, else the
shape table (default shape `box`, unmapped shapes fall back to `codergen`). -/
def handlerType (n : NodeSpec) : String :=
  match n.attrs.lookup "type" with
  | some v =>
      if truthy v then pyStr v
      else shapeType n
  | none => shapeType n
where
  shapeType (n : NodeSpec) : String :=
    match n.attrs.lookup "shape" with
    | some (.str s) => (SHAPE_TYPE_MAP.lookup s).getD "codergen"
    | some _ => "codergen"
    | none => "codergen"

/-- `GraphSpec`: node list (as supplied to the constructor), edge list and
graph-level attributes. -/
structure GraphSpec where
  nodes : List NodeSpec
  edges : List EdgeSpec
  graphAttrs : Attrs
  deriving DecidableEq, Repr

/-- Insert a node into the id-keyed node dict (`{node.id: node for ...}`):
an existing id is overwritten in place, a new id is appended. -/
def nodeInsert (nd : NodeSpec) : List NodeSpec → List NodeSpec
  | [] => [nd]
  | x :: rest => if x.id = nd.id then nd :: rest else x :: nodeInsert nd rest

/-- `self.nodes`: the id-keyed dict built from the constructor's node list. -/
def nodesDict (g : GraphSpec) : List NodeSpec :=
  g.nodes.foldl (fun d nd => nodeInsert nd d) []

/-- `GraphSpec.get_node`, as an `Option` (Python raises `KeyError`). -/
def getNode (g : GraphSpec) (i : String) : Option NodeSpec :=
  (nodesDict g).find? (fun nd => nd.id = i)

/-- `GraphSpec.has_node`. -/
def hasNode (g : GraphSpec) (i : String) : Bool :=
  (getNode g i).isSome

/-- `GraphSpec.outgoing`: edges whose source is the node, in declaration
order (the source builds `_outgoing` by one ordered pass over the edges). -/
def outgoing (g : GraphSpec) (i : String) : List EdgeSpec :=
  g.edges.filter (fun e => e.source = i)

/-- `GraphSpec.goal`: `str(graph_attrs.get("goal", ""))`. -/
def goalOf (g : GraphSpec) : String :=
  match g.graphAttrs.lookup "goal" with
  | some v => pyStr v
  | none => ""

/-- Ids of start-typed nodes, in node-dict order. -/
def startCandidates (g : GraphSpec) : List String :=
  ((nodesDict g).filter (fun nd => handlerType nd = "start")).map (·.id)

/-- Ids of exit-typed nodes, in node-dict order. -/
def exitCandidates (g : GraphSpec) : List String :=
  ((nodesDict g).filter (fun nd => handlerType nd = "exit")).map (·.id)

/-- `GraphSpec.start_node`, `none` modelling the raised `ValueError`. -/
def startNode? (g : GraphSpec) : Option String :=
  match startCandidates g with
  | [s] => some s
  | _ => none

/-- `GraphSpec.exit_node`, `none` modelling the raised `ValueError`. -/
def exitNode? (g : GraphSpec) : Option String :=
  match exitCandidates g with
  | [s] => some s
  | _ => none

/-! ## Attribute value decoding (`graph._parse_value`, `Duration`) -/

/-- Python default-whitespace set for `str.strip()` (ASCII range). -/
def pyWs (c : Char) : Bool :=
  c = ' ' ∨ c = '\t' ∨ c = '\n' ∨ c = '\r' ∨ c = Char.ofNat 11 ∨ c = Char.ofNat 12

/-- `str.strip()`. -/
def pyStrip (s : String) : String :=
  ⟨((s.toList.dropWhile pyWs).reverse.dropWhile pyWs).reverse⟩

/-- ASCII lower-casing of one character. -/
def lowerChar (c : Char) : Char :=
  if 65 <= c.toNat && c.toNat <= 90 then Char.ofNat (c.toNat + 32) else c

/-- `str.lower()` (ASCII case fold, the relevant range here). -/
def pyLower (s : String) : String := ⟨s.toList.map lowerChar⟩

/-- `len(s)` (character count; kernel-reducible form). -/
def strLen (s : String) : Nat := s.toList.length

/-- `s[n:]`. -/
def strDrop (s : String) (n : Nat) : String := ⟨s.toList.drop n⟩

/-- Drop the last `n` characters. -/
def strDropRight (s : String) (n : Nat) : String :=
  ⟨s.toList.take (s.toList.length - n)⟩

/-- `s.endswith(t)`. -/
def strEndsWith (s t : String) : Bool := List.isSuffixOf t.toList s.toList

/-- `s.startswith(t)`. -/
def strStartsWith (s t : String) : Bool := List.isPrefixOf t.toList s.toList

/-- One-or-more decimal digits (`\d+`). -/
def digits1 (cs : List Char) : Bool :=
  match cs with
  | [] => false
  | _ => cs.all (·.isDigit)

/-- The regex `^-?\d+$`. -/
def isIntString (s : String) : Bool :=
  match s.toList with
  | '-' :: cs => digits1 cs
  | cs => digits1 cs

/-- Body of `^\d+\.\d+$` after an optional sign. -/
def floatBody (cs : List Char) : Bool :=
  match cs.span (·.isDigit) with
  | (ds, '.' :: fs) => ds ≠ [] && digits1 fs
  | _ => false

/-- The regex `^-?\d+\.\d+$`. -/
def isFloatString (s : String) : Bool :=
  match s.toList with
  | '-' :: cs => floatBody cs
  | cs => floatBody cs

/-- Numeric value of a digit string. -/
def natOfDigits (cs : List Char) : Nat :=
  cs.foldl (fun a c => a * 10 + (c.toNat - 48)) 0

/-- `int(s)` for strings matching `^-?\d+$`. -/
def intOfString (s : String) : Int :=
  match s.toList with
  | '-' :: cs => -(natOfDigits cs : Int)
  | cs => (natOfDigits cs : Int)

/-- Exact rational value of a decimal literal body
(`intpart.fracpart = (intpart * 10^k + fracpart) / 10^k`). -/
def ratBody (cs : List Char) : ℚ :=
  match cs.span (·.isDigit) with
  | (ds, _ :: fs) => mkRat (natOfDigits ds * 10 ^ fs.length + natOfDigits fs) (10 ^ fs.length)
  | (ds, []) => mkRat (natOfDigits ds) 1

/-- `float(s)` for strings matching `^-?\d+\.\d+$` (exact decimal value). -/
def ratOfDecimal (s : String) : ℚ :=
  match s.toList with
  | '-' :: cs => -(ratBody cs)
  | cs => ratBody cs

/-- The regex `^(-?\d+)(ms|s|m|h|d)$` of `_parse_value`, alternatives tried
in declaration order. -/
def durationMatch (s : String) : Option (Int × String) :=
  if strEndsWith s "ms" && isIntString (strDropRight s 2) then
    some (intOfString (strDropRight s 2), "ms")
  else if strEndsWith s "s" && isIntString (strDropRight s 1) then
    some (intOfString (strDropRight s 1), "s")
  else if strEndsWith s "m" && isIntString (strDropRight s 1) then
    some (intOfString (strDropRight s 1), "m")
  else if strEndsWith s "h" && isIntString (strDropRight s 1) then
    some (intOfString (strDropRight s 1), "h")
  else if strEndsWith s "d" && isIntString (strDropRight s 1) then
    some (intOfString (strDropRight s 1), "d")
  else none

/-- A value that carries surrounding double quotes (`raw.startswith('"') and
raw.endswith('"') and len(raw) >= 2`). -/
def isQuotedString (s : String) : Bool :=
  strStartsWith s "\"" && strEndsWith s "\"" && strLen s ≥ 2

/-- `raw[1:-1]`. -/
def unquote (s : String) : String := strDropRight (strDrop s 1) 1

/-- `graph._parse_value`, line by line: strip, unquote, empty, boolean,
duration, integer, float, fallback raw string. -/
def parseValue (raw0 : String) : AttrValue :=
  let stripped := pyStrip raw0
  let raw := if isQuotedString stripped then unquote stripped else stripped
  if raw = "" then .str ""
  else
    let lower := pyLower raw
    if lower = "true" ∨ lower = "false" then .bool (lower = "true")
    else
      match durationMatch raw with
      | some (v, u) => .duration v u
      | none =>
        if isIntString raw then .int (intOfString raw)
        else if isFloatString raw then .float (ratOfDecimal raw)
        else .str raw

/-- `Duration.UNIT_TO_SECONDS`. -/
def UNIT_TO_SECONDS : List (String × ℚ) :=
  [("ms", 1/1000), ("s", 1), ("m", 60), ("h", 3600), ("d", 86400)]

/-- `Duration.to_seconds`: `value * UNIT_TO_SECONDS.get(unit, 1)`. -/
def durationToSeconds (v : Int) (u : String) : ℚ :=
  (v : ℚ) * ((UNIT_TO_SECONDS.lookup u).getD 1)

/-- The unit suffixes, in the order the spec lists them. -/
def specUnits : List String := ["ms", "s", "m", "h", "d"]

/-- Decoding rule written from the spec's own wording: "quoted text →
unquote; empty → empty string; case-insensitive true/false → boolean;
integer immediately followed by a unit suffix from \x7bms, s, m, h, d\x7d →
duration; plain integer literal → integer; plain decimal literal → float;
otherwise → raw string". -/
def decodeSpec (s0 : String) : AttrValue :=
  let s := if isQuotedString s0 then unquote s0 else s0
  if s = "" then .str ""
  else if pyLower s = "true" then .bool true
  else if pyLower s = "false" then .bool false
  else
    match specUnits.find? (fun u => strEndsWith s u && isIntString (strDropRight s (strLen u))) with
    | some u => .duration (intOfString (strDropRight s (strLen u))) u
    | none =>
      if isIntString s then .int (intOfString s)
      else if isFloatString s then .float (ratOfDecimal s)
      else .str s

theorem durationMatch_eq_specUnits (s : String) :
    durationMatch s =
      (specUnits.find? (fun u => strEndsWith s u && isIntString (strDropRight s (strLen u)))).map
        (fun u => (intOfString (strDropRight s (strLen u)), u)) := by
  have lms : strLen "ms" = 2 := rfl
  have ls : strLen "s" = 1 := rfl
  have lm : strLen "m" = 1 := rfl
  have lh : strLen "h" = 1 := rfl
  have ld : strLen "d" = 1 := rfl
  simp only [durationMatch, specUnits, List.find?, lms, ls, lm, lh, ld]
  by_cases h1 : (strEndsWith s "ms" && isIntString (strDropRight s 2)) = true
  · simp [h1, lms]
  · simp only [Bool.not_eq_true] at h1
    by_cases h2 : (strEndsWith s "s" && isIntString (strDropRight s 1)) = true
    · simp [h1, h2, ls]
    · simp only [Bool.not_eq_true] at h2
      by_cases h3 : (strEndsWith s "m" && isIntString (strDropRight s 1)) = true
      · simp [h1, h2, h3, lm]
      · simp only [Bool.not_eq_true] at h3
        by_cases h4 : (strEndsWith s "h" && isIntString (strDropRight s 1)) = true
        · simp [h1, h2, h3, h4, lh]
        · simp only [Bool.not_eq_true] at h4
          by_cases h5 : (strEndsWith s "d" && isIntString (strDropRight s 1)) = true
          · simp [h1, h2, h3, h4, h5, ld]
          · simp only [Bool.not_eq_true] at h5
            simp [h1, h2, h3, h4, h5]

example : parseValue "30s" = .duration 30 "s" := by decide
example : parseValue "5ms" = .duration 5 "ms" := by decide
example : parseValue "TRUE" = .bool true := by decide
example : parseValue "\"false\"" = .bool false := by decide
example : parseValue " -7 " = .int (-7) := by decide
example : parseValue "-1.5" = .float (-(mkRat 3 2)) := by decide
example : parseValue "hello" = .str "hello" := by decide
example : parseValue "\"\"" = .str "" := by decide

/-- C8: attribute value decoding applies exactly the claimed priority order
(quoted → unquote, empty → empty string, case-insensitive booleans,
integer + unit suffix → duration, integer literal, decimal literal, raw
string fallback), and a duration converts to seconds with the fixed
multipliers ms=0.001, s=1, m=60, h=3600, d=86400. -/
theorem parse_value_decode_priority :
    (∀ raw, parseValue raw = decodeSpec (pyStrip raw)) ∧
    (∀ v : Int, durationToSeconds v "ms" = (v : ℚ) * (1/1000) ∧
      durationToSeconds v "s" = (v : ℚ) * 1 ∧
      durationToSeconds v "m" = (v : ℚ) * 60 ∧
      durationToSeconds v "h" = (v : ℚ) * 3600 ∧
      durationToSeconds v "d" = (v : ℚ) * 86400) := by
  constructor
  · intro raw
    simp only [parseValue, decodeSpec]
    set t := if isQuotedString (pyStrip raw) then unquote (pyStrip raw) else pyStrip raw with ht
    by_cases h0 : t = ""
    · simp [h0]
    · simp only [if_neg h0]
      by_cases h1 : pyLower t = "true"
      · simp [h1]
      · by_cases h2 : pyLower t = "false"
        · simp [h1, h2]
        · have hor : ¬(pyLower t = "true" ∨ pyLower t = "false") := by
            rintro (h | h) <;> [exact h1 h; exact h2 h]
          simp only [if_neg hor, if_neg h1, if_neg h2, durationMatch_eq_specUnits]
          cases hf : specUnits.find? (fun u => strEndsWith t u && isIntString (strDropRight t (strLen u))) with
          | none => simp
          | some u => simp
  · intro v
    refine ⟨?_, ?_, ?_, ?_, ?_⟩ <;>
      simp [durationToSeconds, UNIT_TO_SECONDS, List.lookup]

/-! ## Guard evaluation (`conditions.evaluate_condition`) -/

/-- `conditions.evaluate_condition`.  The call
`eval(expression, {"__builtins__": {}}, namespace)` on the namespace built
from the context snapshot and the graph attributes is abstracted as
`pyEval` (returning `.error` for any raised evaluation error), and Python's
`bool(...)` on the produced object as `pyBool`; the try/except structure
and the falsy-expression early return are modelled exactly. -/
def evaluateCondition {α : Type} (pyEval : String → Ctx → Attrs → Except String α)
    (pyBool : α → Bool) (expression : Option String) (context : Ctx)
    (graphAttrs : Attrs) : Bool :=
  match expression with
  | none => true
  | some e =>
    if e = "" then true
    else
      match pyEval e context graphAttrs with
      | .ok v => pyBool v
      | .error _ => false

/-- C4: an absent or empty guard expression evaluates to true, and any
evaluation error of a non-empty expression yields false; `evaluateCondition`
is a total Bool-valued function, so no exception propagates. -/
theorem evaluate_condition_fails_closed {α : Type}
    (pyEval : String → Ctx → Attrs → Except String α) (pyBool : α → Bool)
    (context : Ctx) (graphAttrs : Attrs) :
    (∀ expression, expression = none ∨ expression = some "" →
      evaluateCondition pyEval pyBool expression context graphAttrs = true) ∧
    (∀ e err, e ≠ "" → pyEval e context graphAttrs = .error err →
      evaluateCondition pyEval pyBool (some e) context graphAttrs = false) := by
  constructor
  · rintro expression (rfl | rfl) <;> simp [evaluateCondition]
  · intro e err hne herr
    simp [evaluateCondition, hne, herr]

/-- Witness for `evaluate_condition_fails_closed`: a concrete evaluator that
raises a NameError on every expression. -/
theorem evaluate_condition_fails_closed_witness :
    evaluateCondition (α := Unit)
      (fun _ _ _ => .error "NameError: name 'missing' is not defined")
      (fun _ => true) none [] [] = true ∧
    evaluateCondition (α := Unit)
      (fun _ _ _ => .error "NameError: name 'missing' is not defined")
      (fun _ => true) (some "context['missing']") [] [] = false := by
  constructor
  · exact (evaluate_condition_fails_closed _ _ [] []).1 none (Or.inl rfl)
  · exact (evaluate_condition_fails_closed _ _ [] []).2 "context['missing']"
      "NameError: name 'missing' is not defined" (by decide) rfl

/-! ## DOT node-statement processing (`GraphSpec.parse_dot_data`) -/

/-- Python `str.strip('"')`: remove every leading and trailing `"`. -/
def stripQuoteChars (s : String) : String :=
  ⟨((s.toList.dropWhile (· = '"')).reverse.dropWhile (· = '"')).reverse⟩

/-- The identifier regex `^[A-Za-z_][A-Za-z0-9_]*$` of `parse_dot_data`. -/
def isValidNodeId (s : String) : Bool :=
  match s.toList with
  | [] => false
  | c :: cs => (c.isAlpha || c = '_') && cs.all (fun d => d.isAlphanum || d = '_')

/-- `_parse_attrs`: decode every raw attribute value. -/
def parseAttrs (raw : List (String × String)) : Attrs :=
  raw.map (fun kv => (kv.1, parseValue kv.2))

/-- The node loop of `GraphSpec.parse_dot_data`, over the node statements
returned by the external DOT tokenizer (pydot), each a raw name plus raw
attributes.  Names `node`, `edge`, `graph` are skipped before validation;
an invalid id raises `ValueError` (the `.error` case); valid nodes are
collected in order. -/
def parseDotNodes : List (String × List (String × String)) → Except String (List NodeSpec)
  | [] => .ok []
  | (rawName, rawAttrs) :: rest =>
    let name := stripQuoteChars rawName
    if name = "node" ∨ name = "edge" ∨ name = "graph" then
      parseDotNodes rest
    else if isValidNodeId name then
      match parseDotNodes rest with
      | .ok nds => .ok (⟨name, parseAttrs rawAttrs⟩ :: nds)
      | .error msg => .error msg
    else
      .error ("Invalid node id '" ++ name ++ "'")

/-- C10: a node statement whose (quote-stripped) name is exactly `node`,
`edge` or `graph` is silently dropped: processing the document is the same
as processing it without that statement — no identifier validation runs, no
error is raised, and the node cannot appear in the result. -/
theorem parse_dot_nodes_skips_reserved (rawName : String)
    (rawAttrs : List (String × String)) (rest : List (String × List (String × String)))
    (h : stripQuoteChars rawName = "node" ∨ stripQuoteChars rawName = "edge" ∨
      stripQuoteChars rawName = "graph") :
    parseDotNodes ((rawName, rawAttrs) :: rest) = parseDotNodes rest := by
  rcases h with h | h | h <;> simp [parseDotNodes, h]

/-- Witness for `parse_dot_nodes_skips_reserved`: a document that declares a
pipeline step under the name `node` (with attributes) loses it without a
parse failure, while its sibling survives. -/
theorem parse_dot_nodes_skips_reserved_witness :
    parseDotNodes [("node", [("max_retries", "2")]), ("work", [])] =
      .ok [⟨"work", []⟩] ∧
    parseDotNodes [("node", [("max_retries", "2")]), ("work", [])] =
      parseDotNodes [("work", [])] := by
  refine ⟨?_, parse_dot_nodes_skips_reserved "node" [("max_retries", "2")]
    [("work", [])] (Or.inl (by decide))⟩
  rfl

/-! ## Outcomes and the execution engine (`outcome.py`, `engine.py`) -/

/-- `StageStatus`. -/
inductive StageStatus where
  | success
  | partialSuccess
  | retry
  | fail
  | skipped
  deriving DecidableEq, Repr

/-- `Outcome`: what a handler returns to the engine. -/
structure Outcome where
  status : StageStatus
  notes : String
  contextUpdates : List (String × AttrValue)
  preferredLabel : Option String
  suggestedNextIds : List String
  failureReason : Option String
  deriving DecidableEq, Repr

/-- One entry of `RunResult.events`. -/
structure Event where
  node : String
  status : StageStatus
  notes : String
  deriving DecidableEq, Repr

/-- The engine loop's mutable state: current node id, the `retries` dict,
the shared context, and the incrementally built result fields. -/
structure EngineState where
  current : String
  retries : List (String × Int)
  ctx : Ctx
  events : List Event
  completed : List String
  satisfied : List String
  deriving DecidableEq, Repr

/-- `evaluate_condition` as used by the engine: the argument is the parsed
`condition` edge attribute (possibly absent).  Kept abstract because the
code delegates to Python `eval`. -/
abbrev CondEval := Option AttrValue → Ctx → Attrs → Bool

/-- `registry.handler_for(node.handler_type()).execute`, as one total
function.  The leading `Nat` is the number of engine steps taken so far
(`events.length`), which lets the model cover handlers whose behaviour
evolves across invocations (stateful handler objects). -/
abbrev HandlerFun := Nat → NodeSpec → Ctx → GraphSpec → Outcome

/-- Python `set.add` (membership-preserving). -/
def addSet (l : List String) (x : String) : List String :=
  if l.contains x then l else l ++ [x]

/-- Rule 7a: first suggested next id that exists in the graph. -/
def suggestionRoute (g : GraphSpec) (o : Outcome) : Option String :=
  o.suggestedNextIds.find? (fun c => hasNode g c)

/-- Python `a or b` on two optional attribute values. -/
def pyOrOpt (a b : Option AttrValue) : Option AttrValue :=
  match a with
  | some v => if truthy v then some v else b
  | none => b

/-- Rule 7b: on FAIL, a truthy `retry_target` / `fallback_retry_target`
attribute naming an existing node. -/
def retryTargetRoute (g : GraphSpec) (node : NodeSpec) (o : Outcome) : Option String :=
  if o.status = .fail then
    match pyOrOpt (node.attrs.lookup "retry_target") (node.attrs.lookup "fallback_retry_target") with
    | some rt => if truthy rt && hasNode g (pyStr rt) then some (pyStr rt) else none
    | none => none
  else none

/-- Guard-eligible outgoing edges, in declaration order. -/
def eligibleEdges (ec : CondEval) (g : GraphSpec) (nodeId : String) (ctx : Ctx) : List EdgeSpec :=
  (outgoing g nodeId).filter (fun e => ec (e.attrs.lookup "condition") ctx g.graphAttrs)

/-- `label and str(label) == preferred` for one edge. -/
def edgeLabelMatches (p : String) (e : EdgeSpec) : Bool :=
  match e.attrs.lookup "label" with
  | some lv => truthy lv && pyStr lv = p
  | none => false

/-- The preferred-label scan (`if preferred:` — falsy `None`/`""` skip it). -/
def labelRoute (pref : Option String) (cands : List EdgeSpec) : Option String :=
  match pref with
  | some p => if p = "" then none else (cands.find? (edgeLabelMatches p)).map (·.target)
  | none => none

/-- `int(edge.attrs.get("weight", 0))`; `none` models the raised error. -/
def weightInt (e : EdgeSpec) : Option Int :=
  pyInt ((e.attrs.lookup "weight").getD (.int 0))

/-- Stable descending insertion by the integer sort key, matching Python's
stable `sorted(..., reverse=True)`: an element goes before the first entry
whose key is less than or equal to its own. -/
def insDesc (x : Int × EdgeSpec) : List (Int × EdgeSpec) → List (Int × EdgeSpec)
  | [] => [x]
  | y :: ys => if y.1 ≤ x.1 then x :: y :: ys else y :: insDesc x ys

/-- Stable descending sort by the integer sort key. -/
def sortDesc : List (Int × EdgeSpec) → List (Int × EdgeSpec)
  | [] => []
  | x :: xs => insDesc x (sortDesc xs)

/-- The sort-key computation of `sorted(candidates, key=...)`: Python
precomputes `int(edge.attrs.get("weight", 0))` for every candidate in list
order; any conversion failure raises (the `none` case). -/
def mapWeights : List EdgeSpec → Option (List (Int × EdgeSpec))
  | [] => some []
  | e :: es =>
    match weightInt e, mapWeights es with
    | some w, some rest => some ((w, e) :: rest)
    | _, _ => none

/-- `PipelineEngine._pick_next_node`: suggestions, then FAIL retry target,
then guard-eligible edges (label preference, then highest weight with
first-declared tie-break).  `.ok none` models returning `None`; `.error`
models an exception escaping from `int()`/indexing. -/
def pickNextNode (ec : CondEval) (g : GraphSpec) (node : NodeSpec) (ctx : Ctx)
    (o : Outcome) : Except String (Option String) :=
  match suggestionRoute g o with
  | some c => .ok (some c)
  | none =>
    match retryTargetRoute g node o with
    | some t => .ok (some t)
    | none =>
      let cands := eligibleEdges ec g node.id ctx
      if cands = [] then .ok none
      else
        match labelRoute o.preferredLabel cands with
        | some t => .ok (some t)
        | none =>
          match mapWeights cands with
          | none => .error "TypeError: edge weight is not convertible to int"
          | some keyed =>
            match sortDesc keyed with
            | [] => .error "IndexError: list index out of range"
            | (_, e) :: _ => .ok (some e.target)

/-- Result of one iteration of the engine's `while True` body. -/
inductive StepRes where
  | retryLoop (s : EngineState)
  | routed (s : EngineState)
  | finished (s : EngineState)
  | fatal (msg : String) (s : EngineState)
  | keyErr (id : String) (s : EngineState)
  | typeErr (s : EngineState)
  deriving DecidableEq, Repr

/-- The engine state carried by a step result. -/
def StepRes.state : StepRes → EngineState
  | .retryLoop s => s
  | .routed s => s
  | .finished s => s
  | .fatal _ s => s
  | .keyErr _ s => s
  | .typeErr s => s

/-- Whether the step continued at the same node via the retry branch. -/
def StepRes.isRetryLoop : StepRes → Bool
  | .retryLoop _ => true
  | _ => false

/-- Whether the step broke out of the loop at the exit node. -/
def StepRes.isFinished : StepRes → Bool
  | .finished _ => true
  | _ => false

/-- Whether the step failed to look the current node up (`KeyError`). -/
def StepRes.isKeyErr : StepRes → Bool
  | .keyErr _ _ => true
  | _ => false

/-- Exit check and next-node selection (source lines following the retry
branch): break at the exit node, else pick a successor or raise the fatal
`RuntimeError`. -/
def routePhase (ec : CondEval) (g : GraphSpec) (exitId : String) (node : NodeSpec)
    (o : Outcome) (s₁ : EngineState) : StepRes :=
  if node.id = exitId then .finished s₁
  else
    match pickNextNode ec g node s₁.ctx o with
    | .error _ => .typeErr s₁
    | .ok none => .fatal ("No eligible outgoing edge from '" ++ node.id ++ "'") s₁
    | .ok (some nxt) => .routed { s₁ with current := nxt }

/-- Per-iteration bookkeeping (source steps 1-4): append the event, merge
context updates, record goal-gate satisfaction, append to completed. -/
def applyOutcome (node : NodeSpec) (o : Outcome) (s : EngineState) : EngineState :=
  { s with
    events := s.events ++ [⟨node.id, o.status, o.notes⟩]
    ctx := if o.contextUpdates = [] then s.ctx else ctxUpdate s.ctx o.contextUpdates
    satisfied :=
      if truthyOpt (node.attrs.lookup "goal_gate") = true ∧ o.status = .success then
        addSet s.satisfied node.id
      else s.satisfied
    completed := s.completed ++ [node.id] }

/-- The `continue` branch of the retry policy: bump the counter and persist
it into the context under `internal.retry_count.<id>`. -/
def retryState (node : NodeSpec) (s₁ : EngineState) : EngineState :=
  { s₁ with
    retries := dictInsert node.id ((s₁.retries.lookup node.id).getD 0 + 1) s₁.retries
    ctx := ctxSet s₁.ctx ("internal.retry_count." ++ node.id)
      (.int ((s₁.retries.lookup node.id).getD 0 + 1)) }

/-- One iteration of `PipelineEngine.run`'s loop: execute the handler,
apply the bookkeeping, then the retry policy and (if the retry budget is
exhausted or the status is not FAIL/RETRY) the exit check and next-node
selection. -/
def step (ec : CondEval) (g : GraphSpec) (h : HandlerFun) (exitId : String)
    (s : EngineState) : StepRes :=
  match getNode g s.current with
  | none => .keyErr s.current s
  | some node =>
    let o := h s.events.length node s.ctx g
    let s₁ := applyOutcome node o s
    if o.status = .fail ∨ o.status = .retry then
      match pyInt ((node.attrs.lookup "max_retries").getD (.int 0)) with
      | none => .typeErr s₁
      | some maxR =>
        if (s₁.retries.lookup node.id).getD 0 < maxR then .retryLoop (retryState node s₁)
        else routePhase ec g exitId node o s₁
    else routePhase ec g exitId node o s₁

@[simp] theorem applyOutcome_current (node : NodeSpec) (o : Outcome) (s : EngineState) :
    (applyOutcome node o s).current = s.current := rfl

@[simp] theorem applyOutcome_retries (node : NodeSpec) (o : Outcome) (s : EngineState) :
    (applyOutcome node o s).retries = s.retries := rfl

@[simp] theorem applyOutcome_completed (node : NodeSpec) (o : Outcome) (s : EngineState) :
    (applyOutcome node o s).completed = s.completed ++ [node.id] := rfl

@[simp] theorem applyOutcome_events (node : NodeSpec) (o : Outcome) (s : EngineState) :
    (applyOutcome node o s).events = s.events ++ [⟨node.id, o.status, o.notes⟩] := rfl

@[simp] theorem retryState_current (node : NodeSpec) (s₁ : EngineState) :
    (retryState node s₁).current = s₁.current := rfl

@[simp] theorem retryState_completed (node : NodeSpec) (s₁ : EngineState) :
    (retryState node s₁).completed = s₁.completed := rfl

@[simp] theorem retryState_events (node : NodeSpec) (s₁ : EngineState) :
    (retryState node s₁).events = s₁.events := rfl

@[simp] theorem retryState_satisfied (node : NodeSpec) (s₁ : EngineState) :
    (retryState node s₁).satisfied = s₁.satisfied := rfl

theorem retryState_retries (node : NodeSpec) (s₁ : EngineState) :
    (retryState node s₁).retries =
      dictInsert node.id ((s₁.retries.lookup node.id).getD 0 + 1) s₁.retries := rfl

/-- `RunResult`. -/
structure RunResult where
  completedNodes : List String
  goalGateSatisfied : Bool
  context : Ctx
  events : List Event
  deriving DecidableEq, Repr

/-- Ids of nodes with a truthy `goal_gate` attribute (the engine's
`goal_gate_nodes` set, computed once at run start). -/
def goalGateIds (g : GraphSpec) : List String :=
  ((nodesDict g).filter (fun nd => truthyOpt (nd.attrs.lookup "goal_gate"))).map (·.id)

/-- Build the returned `RunResult` at loop termination:
`goal_gate_satisfied = not (goal_gate_nodes - satisfied)`. -/
def mkRunResult (g : GraphSpec) (s : EngineState) : RunResult :=
  ⟨s.completed, (goalGateIds g).all (fun n => s.satisfied.contains n), s.ctx, s.events⟩

/-- Outcome of a whole run.  Error constructors carry the engine state at
the moment of the raise (internal semantics; what the raise actually hands
to the caller is `runObservable` below). -/
inductive RunOutcome where
  | ok (r : RunResult)
  | fatalRouting (msg : String) (s : EngineState)
  | keyErr (id : String) (s : EngineState)
  | typeErr (s : EngineState)
  | structuralErr
  | outOfFuel (s : EngineState)
  deriving DecidableEq, Repr

/-- The engine loop as a fuel-indexed recursion. -/
def runLoop (ec : CondEval) (g : GraphSpec) (h : HandlerFun) (exitId : String) :
    Nat → EngineState → RunOutcome
  | 0, s => .outOfFuel s
  | fuel + 1, s =>
    match step ec g h exitId s with
    | .retryLoop s' => runLoop ec g h exitId fuel s'
    | .routed s' => runLoop ec g h exitId fuel s'
    | .finished s' => .ok (mkRunResult g s')
    | .fatal msg s' => .fatalRouting msg s'
    | .keyErr i s' => .keyErr i s'
    | .typeErr s' => .typeErr s'

/-- The context after `context.set("graph.goal", graph.goal())`. -/
def initCtx (g : GraphSpec) (c₀ : Ctx) : Ctx := ctxSet c₀ "graph.goal" (.str (goalOf g))

/-- Engine state at loop entry. -/
def initState (start : String) (c : Ctx) : EngineState := ⟨start, [], c, [], [], []⟩

/-- `PipelineEngine.run`: resolve the unique start and exit nodes, set
`graph.goal`, then loop. -/
def run (ec : CondEval) (g : GraphSpec) (h : HandlerFun) (fuel : Nat) (c₀ : Ctx) : RunOutcome :=
  match startNode? g, exitNode? g with
  | some st, some ex => runLoop ec g h ex fuel (initState st (initCtx g c₀))
  | _, _ => .structuralErr

/-- What the caller of `PipelineEngine.run` can observe.  On a normal
return it receives the `RunResult`; on a raised error it receives only the
exception (message) plus the `Context` object it itself passed in — the
locally built `RunResult` (completed nodes, events) is discarded by the
raise. -/
inductive Observed where
  | ok (r : RunResult)
  | raisedRuntime (msg : String) (callerCtx : Ctx)
  | raisedOther (callerCtx : Ctx)
  | raisedStructural
  | timeout
  deriving DecidableEq, Repr

/-- Caller-observable projection of a run. -/
def runObservable (ec : CondEval) (g : GraphSpec) (h : HandlerFun) (fuel : Nat)
    (c₀ : Ctx) : Observed :=
  match run ec g h fuel c₀ with
  | .ok r => .ok r
  | .fatalRouting msg s => .raisedRuntime msg s.ctx
  | .keyErr _ s => .raisedOther s.ctx
  | .typeErr s => .raisedOther s.ctx
  | .structuralErr => .raisedStructural
  | .outOfFuel _ => .timeout

/-- The event log the engine had accumulated when the run ended (internal
view, independent of whether it is returned to the caller). -/
def runEvents : RunOutcome → List Event
  | .ok r => r.events
  | .fatalRouting _ s => s.events
  | .keyErr _ s => s.events
  | .typeErr s => s.events
  | .structuralErr => []
  | .outOfFuel s => s.events

/-! ## Concrete fixtures used by witnesses and counterexamples -/

/-- A concrete guard evaluator for fixtures: absent guard true, otherwise
the parsed value's truthiness. -/
def ecTruthy : CondEval := fun c _ _ =>
  match c with
  | none => true
  | some v => truthy v

/-- A handler that always succeeds with no notes. -/
def hOk : HandlerFun := fun _ _ _ _ => ⟨.success, "", [], none, [], none⟩

/-- start → work → exit, all edges unguarded. -/
def gSimple : GraphSpec :=
  ⟨[⟨"start", [("shape", .str "Mdiamond")]⟩,
    ⟨"work", [("shape", .str "box")]⟩,
    ⟨"exitn", [("shape", .str "Msquare")]⟩],
   [⟨"start", "work", []⟩, ⟨"work", "exitn", []⟩],
   [("goal", .str "demo")]⟩

example :
    run ecTruthy gSimple hOk 10 [] =
      .ok ⟨["start", "work", "exitn"], true, [("graph.goal", .str "demo")],
        [⟨"start", .success, ""⟩, ⟨"work", .success, ""⟩, ⟨"exitn", .success, ""⟩]⟩ := by
  decide

/-! ## Routing theorems -/

theorem getNode_id {g : GraphSpec} {i : String} {nd : NodeSpec}
    (h : getNode g i = some nd) : nd.id = i := by
  have := List.find?_some h
  simpa using this

/-- C5: when the outcome declares a (non-empty) preferred label and some
guard-eligible edge's `label` attribute matches it, `_pick_next_node`
routes along the first such edge — regardless of any higher-weight
eligible edge. -/
theorem preferred_label_routes (ec : CondEval) (g : GraphSpec) (node : NodeSpec)
    (ctx : Ctx) (o : Outcome) (p : String) (e : EdgeSpec)
    (hsug : suggestionRoute g o = none)
    (hretry : retryTargetRoute g node o = none)
    (hp : o.preferredLabel = some p) (hpne : p ≠ "")
    (hfind : (eligibleEdges ec g node.id ctx).find? (edgeLabelMatches p) = some e) :
    pickNextNode ec g node ctx o = .ok (some e.target) := by
  have hne : eligibleEdges ec g node.id ctx ≠ [] := by
    intro hnil
    rw [hnil] at hfind
    simp [List.find?] at hfind
  simp only [pickNextNode, hsug, hretry, labelRoute, hp]
  rw [if_neg hne]
  simp [hpne, hfind]

/-- A routing fixture: node `n` with a weight-10 unlabeled edge declared
first and a weight-0 edge labeled `approve` declared second. -/
def gPref : GraphSpec :=
  ⟨[⟨"n", []⟩, ⟨"a", []⟩, ⟨"b", []⟩],
   [⟨"n", "b", [("weight", .int 10)]⟩,
    ⟨"n", "a", [("label", .str "approve"), ("weight", .int 0)]⟩],
   []⟩

/-- An outcome preferring label `approve`. -/
def oPref : Outcome := ⟨.success, "", [], some "approve", [], none⟩

/-- Witness for `preferred_label_routes`: the label-`approve` edge wins
over the higher-weight unlabeled edge. -/
theorem preferred_label_routes_witness :
    suggestionRoute gPref oPref = none ∧
    retryTargetRoute gPref ⟨"n", []⟩ oPref = none ∧
    (eligibleEdges ecTruthy gPref "n" []).find? (edgeLabelMatches "approve") =
      some ⟨"n", "a", [("label", .str "approve"), ("weight", .int 0)]⟩ ∧
    pickNextNode ecTruthy gPref ⟨"n", []⟩ [] oPref = .ok (some "a") :=
  ⟨by decide, by decide, by decide,
   preferred_label_routes ecTruthy gPref ⟨"n", []⟩ [] oPref "approve"
     ⟨"n", "a", [("label", .str "approve"), ("weight", .int 0)]⟩
     (by decide) (by decide) rfl (by decide) (by decide)⟩

theorem sortDesc_head :
    ∀ (l : List (Int × EdgeSpec)), l ≠ [] →
      ∃ p l₁ l₂, l = l₁ ++ p :: l₂ ∧ (sortDesc l).head? = some p ∧
        (∀ q ∈ l₁, q.1 < p.1) ∧ (∀ q ∈ l₂, q.1 ≤ p.1)
  | [], h => absurd rfl h
  | [x], _ => ⟨x, [], [], rfl, rfl, by simp, by simp⟩
  | x :: y :: ys, _ => by
    obtain ⟨p, l₁, l₂, hdec, hhead, hl₁, hl₂⟩ := sortDesc_head (y :: ys) (by simp)
    obtain ⟨t, ht⟩ : ∃ t, sortDesc (y :: ys) = p :: t := by
      cases hs : sortDesc (y :: ys) with
      | nil => rw [hs] at hhead; simp at hhead
      | cons a t =>
        rw [hs] at hhead
        simp only [List.head?] at hhead
        exact ⟨t, by rw [Option.some_inj.mp hhead]⟩
    by_cases hle : p.1 ≤ x.1
    · refine ⟨x, [], y :: ys, rfl, ?_, by simp, ?_⟩
      · have hsx : sortDesc (x :: y :: ys) = insDesc x (sortDesc (y :: ys)) := rfl
        rw [hsx, ht, insDesc, if_pos hle]
        rfl
      · intro q hq
        rw [hdec] at hq
        rcases List.mem_append.mp hq with hq | hq
        · exact le_of_lt (lt_of_lt_of_le (hl₁ q hq) hle)
        · rcases List.mem_cons.mp hq with rfl | hq
          · exact hle
          · exact le_trans (hl₂ q hq) hle
    · push_neg at hle
      refine ⟨p, x :: l₁, l₂, by rw [hdec]; rfl, ?_, ?_, hl₂⟩
      · have hsx : sortDesc (x :: y :: ys) = insDesc x (sortDesc (y :: ys)) := rfl
        rw [hsx, ht, insDesc, if_neg (not_le.mpr hle)]
        rfl
      · intro q hq
        rcases List.mem_cons.mp hq with rfl | hq
        · exact hle
        · exact hl₁ q hq

theorem mapWeights_eq :
    ∀ (l : List EdgeSpec), (∀ e ∈ l, (weightInt e).isSome) →
      mapWeights l = some (l.map (fun e => ((weightInt e).getD 0, e)))
  | [], _ => rfl
  | x :: xs, hw => by
    obtain ⟨w, hwx⟩ := Option.isSome_iff_exists.mp (hw x (by simp))
    have ih := mapWeights_eq xs (fun e he => hw e (by simp [he]))
    simp [mapWeights, hwx, ih]

/-- C3: when routing falls through to weighted edge selection (no
applicable suggestion, no retry target, no matching preferred label), the
chosen edge carries the maximal `int(weight)` among the eligible edges,
and every eligible edge declared before it has a strictly smaller weight
(first-declared wins among ties). -/
theorem highest_weight_edge_chosen (ec : CondEval) (g : GraphSpec) (node : NodeSpec)
    (ctx : Ctx) (o : Outcome)
    (hsug : suggestionRoute g o = none)
    (hretry : retryTargetRoute g node o = none)
    (hlabel : labelRoute o.preferredLabel (eligibleEdges ec g node.id ctx) = none)
    (hne : eligibleEdges ec g node.id ctx ≠ [])
    (hw : ∀ e ∈ eligibleEdges ec g node.id ctx, (weightInt e).isSome) :
    ∃ e l₁ l₂, pickNextNode ec g node ctx o = .ok (some e.target) ∧
      eligibleEdges ec g node.id ctx = l₁ ++ e :: l₂ ∧
      (∀ e' ∈ l₁, (weightInt e').getD 0 < (weightInt e).getD 0) ∧
      (∀ e' ∈ l₂, (weightInt e').getD 0 ≤ (weightInt e).getD 0) := by
  have hkeyed := mapWeights_eq (eligibleEdges ec g node.id ctx) hw
  have hkne : (eligibleEdges ec g node.id ctx).map
      (fun e => ((weightInt e).getD 0, e)) ≠ [] := by
    simpa using hne
  obtain ⟨p, L₁, L₂, hdec, hhead, hL₁, hL₂⟩ :=
    sortDesc_head ((eligibleEdges ec g node.id ctx).map (fun e => ((weightInt e).getD 0, e))) hkne
  obtain ⟨M₁, rest, hcands, hm1, hrest⟩ := List.append_eq_map_iff.mp hdec.symm
  obtain ⟨pe, M₂, hrest2, hfpe, hm2⟩ := List.map_eq_cons_iff.mp hrest
  obtain ⟨t, ht⟩ : ∃ t, sortDesc ((eligibleEdges ec g node.id ctx).map
      (fun e => ((weightInt e).getD 0, e))) = p :: t := by
    cases hs : sortDesc ((eligibleEdges ec g node.id ctx).map
        (fun e => ((weightInt e).getD 0, e))) with
    | nil => rw [hs] at hhead; simp at hhead
    | cons a t =>
      rw [hs] at hhead
      simp only [List.head?] at hhead
      exact ⟨t, by rw [Option.some_inj.mp hhead]⟩
  have hp2 : p.2 = pe := by rw [← hfpe]
  have hp1 : p.1 = (weightInt pe).getD 0 := by rw [← hfpe]
  refine ⟨pe, M₁, M₂, ?_, by rw [hcands, hrest2], ?_, ?_⟩
  · simp only [pickNextNode, hsug, hretry, hlabel]
    rw [if_neg hne]
    simp only [hlabel, hkeyed, ht]
    rw [hp2]
  · intro e' he'
    have : ((weightInt e').getD 0, e') ∈ L₁ := by
      rw [← hm1]
      exact List.mem_map_of_mem _ he'
    have := hL₁ _ this
    rwa [hp1] at this
  · intro e' he'
    have : ((weightInt e').getD 0, e') ∈ L₂ := by
      rw [← hm2]
      exact List.mem_map_of_mem _ he'
    have := hL₂ _ this
    rwa [hp1] at this

/-- Weighted-routing fixture: weight 5 declared before weight 10. -/
def gW1 : GraphSpec :=
  ⟨[⟨"n", []⟩, ⟨"a", []⟩, ⟨"b", []⟩],
   [⟨"n", "a", [("weight", .int 5)]⟩, ⟨"n", "b", [("weight", .int 10)]⟩], []⟩

/-- Weighted-routing fixture: weight 10 declared before weight 5. -/
def gW2 : GraphSpec :=
  ⟨[⟨"n", []⟩, ⟨"a", []⟩, ⟨"b", []⟩],
   [⟨"n", "b", [("weight", .int 10)]⟩, ⟨"n", "a", [("weight", .int 5)]⟩], []⟩

/-- An outcome with no routing hints. -/
def oPlain : Outcome := ⟨.success, "", [], none, [], none⟩

/-- Witness for `highest_weight_edge_chosen`: with eligible weights 5 and
10 the weight-10 edge is chosen in both declaration orders. -/
theorem highest_weight_edge_chosen_witness :
    suggestionRoute gW1 oPlain = none ∧
    (∃ e l₁ l₂, pickNextNode ecTruthy gW1 ⟨"n", []⟩ [] oPlain = .ok (some e.target) ∧
      eligibleEdges ecTruthy gW1 "n" [] = l₁ ++ e :: l₂ ∧
      (∀ e' ∈ l₁, (weightInt e').getD 0 < (weightInt e).getD 0) ∧
      (∀ e' ∈ l₂, (weightInt e').getD 0 ≤ (weightInt e).getD 0)) ∧
    pickNextNode ecTruthy gW1 ⟨"n", []⟩ [] oPlain = .ok (some "b") ∧
    pickNextNode ecTruthy gW2 ⟨"n", []⟩ [] oPlain = .ok (some "b") :=
  ⟨by decide,
   highest_weight_edge_chosen ecTruthy gW1 ⟨"n", []⟩ [] oPlain
     (by decide) (by decide) (by decide) (by decide) (by decide),
   by rfl, by rfl⟩

/-! ## Retry policy (C1) -/

/-- Iterate the engine step as long as it takes the retry branch
(`continue` without advancing); `none` if some step routes instead. -/
def iterRetry (ec : CondEval) (g : GraphSpec) (h : HandlerFun) (exitId : String) :
    Nat → EngineState → Option EngineState
  | 0, s => some s
  | j + 1, s =>
    match step ec g h exitId s with
    | .retryLoop s' => iterRetry ec g h exitId j s'
    | _ => none

theorem step_retry_branch (ec : CondEval) (g : GraphSpec) (h : HandlerFun)
    (exitId : String) (N : String) (node : NodeSpec) (K : Int) (s : EngineState)
    (hn : getNode g N = some node)
    (hm : pyInt ((node.attrs.lookup "max_retries").getD (.int 0)) = some K)
    (hfail : (h s.events.length node s.ctx g).status = .fail)
    (hcur : s.current = N)
    (hcount : (s.retries.lookup node.id).getD 0 < K) :
    ∃ s', step ec g h exitId s = .retryLoop s' ∧ s'.current = N ∧
      s'.retries.lookup node.id = some ((s.retries.lookup node.id).getD 0 + 1) ∧
      s'.completed = s.completed ++ [node.id] ∧
      s'.events.length = s.events.length + 1 := by
  have hstep : step ec g h exitId s =
      .retryLoop (retryState node (applyOutcome node (h s.events.length node s.ctx g) s)) := by
    simp only [step, hcur, hn, hfail, hm, applyOutcome_retries]
    simp [hcount]
  refine ⟨_, hstep, ?_, ?_, ?_, ?_⟩
  · simpa using hcur
  · simp [retryState_retries, lookup_dictInsert_self]
  · simp
  · simp

theorem routePhase_shape (ec : CondEval) (g : GraphSpec) (exitId : String)
    (node : NodeSpec) (o : Outcome) (s₁ : EngineState) (hne : node.id ≠ exitId) :
    (routePhase ec g exitId node o s₁).isRetryLoop = false ∧
    (routePhase ec g exitId node o s₁).isFinished = false ∧
    (routePhase ec g exitId node o s₁).isKeyErr = false ∧
    (routePhase ec g exitId node o s₁).state.completed = s₁.completed := by
  simp only [routePhase, if_neg hne]
  cases hp : pickNextNode ec g node s₁.ctx o with
  | error msg => simp [StepRes.isRetryLoop, StepRes.isFinished, StepRes.isKeyErr, StepRes.state]
  | ok v =>
    cases v with
    | none => simp [StepRes.isRetryLoop, StepRes.isFinished, StepRes.isKeyErr, StepRes.state]
    | some nxt => simp [StepRes.isRetryLoop, StepRes.isFinished, StepRes.isKeyErr, StepRes.state]

theorem step_exhausted_routes (ec : CondEval) (g : GraphSpec) (h : HandlerFun)
    (exitId : String) (N : String) (node : NodeSpec) (K : Int) (s : EngineState)
    (hn : getNode g N = some node)
    (hm : pyInt ((node.attrs.lookup "max_retries").getD (.int 0)) = some K)
    (hfail : (h s.events.length node s.ctx g).status = .fail)
    (hcur : s.current = N)
    (hcount : ¬ (s.retries.lookup node.id).getD 0 < K)
    (hne : node.id ≠ exitId) :
    (step ec g h exitId s).isRetryLoop = false ∧
    (step ec g h exitId s).isFinished = false ∧
    (step ec g h exitId s).isKeyErr = false ∧
    (step ec g h exitId s).state.completed = s.completed ++ [node.id] := by
  have hstep : step ec g h exitId s =
      routePhase ec g exitId node (h s.events.length node s.ctx g)
        (applyOutcome node (h s.events.length node s.ctx g) s) := by
    simp only [step, hcur, hn, hfail, hm, applyOutcome_retries]
    simp [hcount]
  rw [hstep]
  have hshape := routePhase_shape ec g exitId node (h s.events.length node s.ctx g)
    (applyOutcome node (h s.events.length node s.ctx g) s) hne
  refine ⟨hshape.1, hshape.2.1, hshape.2.2.1, ?_⟩
  rw [hshape.2.2.2]
  simp

theorem iterRetry_fail_loop (ec : CondEval) (g : GraphSpec) (h : HandlerFun)
    (exitId : String) (N : String) (node : NodeSpec) (K : Nat)
    (hn : getNode g N = some node)
    (hm : pyInt ((node.attrs.lookup "max_retries").getD (.int 0)) = some (K : Int))
    (hfail : ∀ i ctx, (h i node ctx g).status = .fail) :
    ∀ (j : Nat) (s : EngineState), s.current = N →
      (s.retries.lookup node.id).getD 0 + (j : Int) = (K : Int) →
      ∃ s', iterRetry ec g h exitId j s = some s' ∧ s'.current = N ∧
        (s'.retries.lookup node.id).getD 0 = (K : Int) ∧
        s'.completed = s.completed ++ List.replicate j node.id := by
  intro j
  induction j with
  | zero =>
    intro s hcur hsum
    exact ⟨s, rfl, hcur, by simpa using hsum, by simp⟩
  | succ j ih =>
    intro s hcur hsum
    have hcount : (s.retries.lookup node.id).getD 0 < (K : Int) := by
      omega
    obtain ⟨s₁, hstep, hcur₁, hlook₁, hcomp₁, _⟩ :=
      step_retry_branch ec g h exitId N node (K : Int) s hn hm
        (hfail s.events.length s.ctx) hcur hcount
    have hsum₁ : (s₁.retries.lookup node.id).getD 0 + (j : Int) = (K : Int) := by
      rw [hlook₁]
      simp only [Option.getD_some]
      push_cast at hsum ⊢
      omega
    obtain ⟨s', hiter, hcur', hlook', hcomp'⟩ := ih s₁ hcur₁ hsum₁
    refine ⟨s', ?_, hcur', hlook', ?_⟩
    · simp [iterRetry, hstep, hiter]
    · rw [hcomp', hcomp₁, List.append_assoc]
      simp [List.replicate_succ]

/-- C1: a node whose handler returns FAIL on every invocation and whose
`max_retries` converts to K is executed exactly K+1 times — the step
re-enters the retry branch K times without advancing, and the (K+1)-st
execution leaves the retry loop for exit-check/next-node routing (here: a
non-exit node, so the step routes away or fails fatally). -/
theorem fail_node_executes_max_retries_plus_one (ec : CondEval) (g : GraphSpec)
    (h : HandlerFun) (exitId : String) (N : String) (node : NodeSpec) (K : Nat)
    (s : EngineState)
    (hn : getNode g N = some node)
    (hm : pyInt ((node.attrs.lookup "max_retries").getD (.int 0)) = some (K : Int))
    (hfail : ∀ i ctx, (h i node ctx g).status = .fail)
    (hne : N ≠ exitId)
    (hcur : s.current = N)
    (hr : s.retries.lookup node.id = none) :
    ∃ s', iterRetry ec g h exitId K s = some s' ∧ s'.current = N ∧
      (s'.retries.lookup node.id).getD 0 = (K : Int) ∧
      s'.completed = s.completed ++ List.replicate K node.id ∧
      (step ec g h exitId s').isRetryLoop = false ∧
      (step ec g h exitId s').isFinished = false ∧
      (step ec g h exitId s').isKeyErr = false ∧
      (step ec g h exitId s').state.completed =
        s.completed ++ List.replicate (K + 1) node.id := by
  have hid : node.id = N := getNode_id hn
  obtain ⟨s', hiter, hcur', hlook', hcomp'⟩ :=
    iterRetry_fail_loop ec g h exitId N node K hn hm hfail K s hcur
      (by rw [hr]; simp)
  have hroute := step_exhausted_routes ec g h exitId N node (K : Int) s' hn hm
    (hfail s'.events.length s'.ctx) hcur' (by rw [hlook']; omega) (hid ▸ hne)
  refine ⟨s', hiter, hcur', hlook', hcomp', hroute.1, hroute.2.1, hroute.2.2.1, ?_⟩
  rw [hroute.2.2.2, hcomp', List.append_assoc]
  have : List.replicate K node.id ++ [node.id] = List.replicate (K + 1) node.id := by
    rw [← List.replicate_succ']
  rw [this]

/-- Retry fixture node: `max_retries = 2`. -/
def flakyNode : NodeSpec := ⟨"flaky", [("shape", .str "box"), ("max_retries", .int 2)]⟩

/-- start → flaky(max_retries=2) → exit. -/
def gRetry : GraphSpec :=
  ⟨[⟨"start", [("shape", .str "Mdiamond")]⟩, flakyNode,
    ⟨"exitn", [("shape", .str "Msquare")]⟩],
   [⟨"start", "flaky", []⟩, ⟨"flaky", "exitn", []⟩], []⟩

/-- A handler that always fails on `flaky` and succeeds elsewhere. -/
def hFail : HandlerFun := fun _ nd _ _ =>
  if nd.id = "flaky" then ⟨.fail, "", [], none, [], none⟩
  else ⟨.success, "", [], none, [], none⟩

/-- Witness for `fail_node_executes_max_retries_plus_one`: with
`max_retries = 2` the always-failing node is executed exactly 3 times, and
a full run completes with `flaky` appearing three times in the completed
list. -/
theorem fail_node_executes_max_retries_plus_one_witness :
    getNode gRetry "flaky" = some flakyNode ∧
    pyInt ((flakyNode.attrs.lookup "max_retries").getD (.int 0)) = some ((2 : Nat) : Int) ∧
    (∃ s', iterRetry ecTruthy gRetry hFail "exitn" 2
        (⟨"flaky", [], [], [], [], []⟩ : EngineState) = some s' ∧
      s'.current = "flaky" ∧
      (s'.retries.lookup flakyNode.id).getD 0 = ((2 : Nat) : Int) ∧
      s'.completed = (⟨"flaky", [], [], [], [], []⟩ : EngineState).completed ++
        List.replicate 2 flakyNode.id ∧
      (step ecTruthy gRetry hFail "exitn" s').isRetryLoop = false ∧
      (step ecTruthy gRetry hFail "exitn" s').isFinished = false ∧
      (step ecTruthy gRetry hFail "exitn" s').isKeyErr = false ∧
      (step ecTruthy gRetry hFail "exitn" s').state.completed =
        (⟨"flaky", [], [], [], [], []⟩ : EngineState).completed ++
          List.replicate (2 + 1) flakyNode.id) ∧
    run ecTruthy gRetry hFail 20 [] =
      .ok ⟨["start", "flaky", "flaky", "flaky", "exitn"], true,
        [("graph.goal", .str ""), ("internal.retry_count.flaky", .int 2)],
        [⟨"start", .success, ""⟩, ⟨"flaky", .fail, ""⟩, ⟨"flaky", .fail, ""⟩,
         ⟨"flaky", .fail, ""⟩, ⟨"exitn", .success, ""⟩]⟩ :=
  ⟨by decide, by decide,
   fail_node_executes_max_retries_plus_one ecTruthy gRetry hFail "exitn" "flaky"
     flakyNode 2 ⟨"flaky", [], [], [], [], []⟩ (by decide) (by decide)
     (fun _ _ => rfl) (by decide) rfl rfl,
   by decide⟩

/-! ## Retry-counter invariant (C9) -/

/-- All engine states a run passes through (loop entry states plus the
state at the moment the loop ends or raises), fuel-indexed. -/
def runTrace (ec : CondEval) (g : GraphSpec) (h : HandlerFun) (exitId : String) :
    Nat → EngineState → List EngineState
  | 0, s => [s]
  | fuel + 1, s =>
    s :: (match step ec g h exitId s with
      | .retryLoop s' => runTrace ec g h exitId fuel s'
      | .routed s' => runTrace ec g h exitId fuel s'
      | r => [r.state])

/-- Every entry of the engine's `retries` dict is bounded by the owning
node's `int(max_retries)` (default 0). -/
def RetryInv (g : GraphSpec) (s : EngineState) : Prop :=
  ∀ n k, s.retries.lookup n = some k →
    ∃ nd M, getNode g n = some nd ∧
      pyInt ((nd.attrs.lookup "max_retries").getD (.int 0)) = some M ∧ k ≤ M

theorem routePhase_state_fields (ec : CondEval) (g : GraphSpec) (exitId : String)
    (node : NodeSpec) (o : Outcome) (s₁ : EngineState) :
    (routePhase ec g exitId node o s₁).state.retries = s₁.retries ∧
    (routePhase ec g exitId node o s₁).state.events = s₁.events ∧
    (routePhase ec g exitId node o s₁).state.satisfied = s₁.satisfied := by
  unfold routePhase
  by_cases hexit : node.id = exitId
  · simp [hexit, StepRes.state]
  · simp only [if_neg hexit]
    cases pickNextNode ec g node s₁.ctx o with
    | error m => simp [StepRes.state]
    | ok v =>
      cases v with
      | none => simp [StepRes.state]
      | some nxt => simp [StepRes.state]

theorem step_preserves_retryInv (ec : CondEval) (g : GraphSpec) (h : HandlerFun)
    (exitId : String) (s : EngineState) (hinv : RetryInv g s) :
    RetryInv g (step ec g h exitId s).state := by
  cases hn : getNode g s.current with
  | none =>
    simp only [step, hn, StepRes.state]
    exact hinv
  | some node =>
    have hid : node.id = s.current := getNode_id hn
    have hgn : getNode g node.id = some node := by rw [hid]; exact hn
    simp only [step, hn]
    split
    · split
      · intro n k hk
        simp only [StepRes.state, applyOutcome_retries] at hk
        exact hinv n k hk
      · rename_i M hm
        split
        · rename_i hcnt
          intro n k hk
          simp only [StepRes.state, retryState_retries, applyOutcome_retries] at hk
          by_cases hn' : n = node.id
          · subst hn'
            rw [lookup_dictInsert_self] at hk
            refine ⟨node, M, hgn, hm, ?_⟩
            have hk' := Option.some.inj hk
            rw [applyOutcome_retries] at hcnt
            omega
          · rw [lookup_dictInsert_ne _ _ _ _ hn'] at hk
            exact hinv n k hk
        · intro n k hk
          rw [(routePhase_state_fields ec g exitId node _ _).1, applyOutcome_retries] at hk
          exact hinv n k hk
    · intro n k hk
      rw [(routePhase_state_fields ec g exitId node _ _).1, applyOutcome_retries] at hk
      exact hinv n k hk

theorem runTrace_retryInv (ec : CondEval) (g : GraphSpec) (h : HandlerFun)
    (exitId : String) :
    ∀ (fuel : Nat) (s : EngineState), RetryInv g s →
      ∀ t ∈ runTrace ec g h exitId fuel s, RetryInv g t
  | 0, s, hinv => by
    intro t ht
    simp only [runTrace, List.mem_singleton] at ht
    subst ht
    exact hinv
  | fuel + 1, s, hinv => by
    intro t ht
    simp only [runTrace] at ht
    rcases List.mem_cons.mp ht with rfl | ht
    · exact hinv
    · have hnext := step_preserves_retryInv ec g h exitId s hinv
      cases hstep : step ec g h exitId s with
      | retryLoop s' =>
        rw [hstep] at ht hnext
        simp only [StepRes.state] at hnext
        exact runTrace_retryInv ec g h exitId fuel s' hnext t ht
      | routed s' =>
        rw [hstep] at ht hnext
        simp only [StepRes.state] at hnext
        exact runTrace_retryInv ec g h exitId fuel s' hnext t ht
      | finished s' =>
        rw [hstep] at ht hnext
        simp only [List.mem_singleton] at ht
        subst ht
        exact hnext
      | fatal m s' =>
        rw [hstep] at ht hnext
        simp only [List.mem_singleton] at ht
        subst ht
        exact hnext
      | keyErr i s' =>
        rw [hstep] at ht hnext
        simp only [List.mem_singleton] at ht
        subst ht
        exact hnext
      | typeErr s' =>
        rw [hstep] at ht hnext
        simp only [List.mem_singleton] at ht
        subst ht
        exact hnext

/-- C9: throughout every run (every state in the run's trace, starting
from the engine's initial state with an empty retries dict), every
per-node retry counter held by the engine is at most that node's
`int(max_retries)` (default 0 when the attribute is absent) — the counter
is only ever incremented while strictly below that bound. -/
theorem retry_counter_never_exceeds_max (ec : CondEval) (g : GraphSpec)
    (h : HandlerFun) (exitId start : String) (c : Ctx) (fuel : Nat)
    (s : EngineState)
    (hs : s ∈ runTrace ec g h exitId fuel (initState start c)) :
    ∀ n k, s.retries.lookup n = some k →
      ∃ nd M, getNode g n = some nd ∧
        pyInt ((nd.attrs.lookup "max_retries").getD (.int 0)) = some M ∧ k ≤ M :=
  runTrace_retryInv ec g h exitId fuel (initState start c)
    (fun n k hk => by simp [initState, List.lookup] at hk) s hs

/-- Witness for `retry_counter_never_exceeds_max`: the state of the
`gRetry` run in which `flaky`'s counter has reached 2 is in the trace, and
the invariant instantiates there (2 ≤ max_retries = 2). -/
theorem retry_counter_never_exceeds_max_witness :
    (⟨"flaky", [("flaky", 2)],
      [("graph.goal", .str ""), ("internal.retry_count.flaky", .int 2)],
      [⟨"start", .success, ""⟩, ⟨"flaky", .fail, ""⟩, ⟨"flaky", .fail, ""⟩],
      ["start", "flaky", "flaky"], []⟩ : EngineState) ∈
        runTrace ecTruthy gRetry hFail "exitn" 20 (initState "start" (initCtx gRetry [])) ∧
    ∃ nd M, getNode gRetry "flaky" = some nd ∧
      pyInt ((nd.attrs.lookup "max_retries").getD (.int 0)) = some M ∧ (2 : Int) ≤ M :=
  ⟨by decide,
   retry_counter_never_exceeds_max ecTruthy gRetry hFail "exitn" "start"
     (initCtx gRetry []) 20
     ⟨"flaky", [("flaky", 2)],
      [("graph.goal", .str ""), ("internal.retry_count.flaky", .int 2)],
      [⟨"start", .success, ""⟩, ⟨"flaky", .fail, ""⟩, ⟨"flaky", .fail, ""⟩],
      ["start", "flaky", "flaky"], []⟩
     (by decide) "flaky" 2 (by decide)⟩

/-! ## Goal-gate bookkeeping (C2) -/

/-- Whether node id `n` names a node with a truthy `goal_gate` attribute. -/
def isGoalGateId (g : GraphSpec) (n : String) : Bool :=
  match getNode g n with
  | some nd => truthyOpt (nd.attrs.lookup "goal_gate")
  | none => false

/-- The engine's `satisfied` set holds exactly the goal-gate nodes with a
SUCCESS event recorded so far. -/
def GateInv (g : GraphSpec) (s : EngineState) : Prop :=
  ∀ n, n ∈ s.satisfied ↔
    (isGoalGateId g n = true ∧ ∃ ev ∈ s.events, ev.node = n ∧ ev.status = StageStatus.success)

theorem mem_nodeInsert {nd y : NodeSpec} :
    ∀ {l : List NodeSpec}, y ∈ nodeInsert nd l → y = nd ∨ y ∈ l
  | [], hy => by simpa [nodeInsert] using hy
  | x :: rest, hy => by
    by_cases hx : x.id = nd.id
    · simp only [nodeInsert, if_pos hx] at hy
      rcases List.mem_cons.mp hy with rfl | hy
      · exact Or.inl rfl
      · exact Or.inr (List.mem_cons_of_mem _ hy)
    · simp only [nodeInsert, if_neg hx] at hy
      rcases List.mem_cons.mp hy with rfl | hy
      · exact Or.inr (List.mem_cons_self _ _)
      · rcases mem_nodeInsert hy with h | h
        · exact Or.inl h
        · exact Or.inr (List.mem_cons_of_mem _ h)

theorem pairwise_nodeInsert (nd : NodeSpec) :
    ∀ (l : List NodeSpec), l.Pairwise (fun a b => a.id ≠ b.id) →
      (nodeInsert nd l).Pairwise (fun a b => a.id ≠ b.id)
  | [], _ => by simp [nodeInsert]
  | x :: rest, hp => by
    rcases List.pairwise_cons.mp hp with ⟨hx, hrest⟩
    by_cases hxe : x.id = nd.id
    · simp only [nodeInsert, if_pos hxe]
      exact List.pairwise_cons.mpr ⟨fun y hy => hxe ▸ hx y hy, hrest⟩
    · simp only [nodeInsert, if_neg hxe]
      refine List.pairwise_cons.mpr ⟨?_, pairwise_nodeInsert nd rest hrest⟩
      intro y hy
      rcases mem_nodeInsert hy with rfl | hy
      · exact hxe
      · exact hx y hy

theorem nodesDict_pairwise (g : GraphSpec) :
    (nodesDict g).Pairwise (fun a b => a.id ≠ b.id) := by
  have : ∀ (l : List NodeSpec) (acc : List NodeSpec),
      acc.Pairwise (fun a b => a.id ≠ b.id) →
      (l.foldl (fun d nd => nodeInsert nd d) acc).Pairwise (fun a b => a.id ≠ b.id) := by
    intro l
    induction l with
    | nil => intro acc hacc; simpa using hacc
    | cons x xs ih =>
      intro acc hacc
      exact ih (nodeInsert x acc) (pairwise_nodeInsert x acc hacc)
  exact this g.nodes [] (by simp)

theorem find?_id_eq_of_mem {nd : NodeSpec} :
    ∀ {l : List NodeSpec}, nd ∈ l → l.Pairwise (fun a b => a.id ≠ b.id) →
      l.find? (fun x => x.id = nd.id) = some nd
  | [], hmem, _ => by simp at hmem
  | x :: rest, hmem, hp => by
    rcases List.pairwise_cons.mp hp with ⟨hx, hrest⟩
    rcases List.mem_cons.mp hmem with rfl | hmem
    · simp [List.find?]
    · have hne : (decide (x.id = nd.id)) = false := by
        simpa using hx nd hmem
      simp only [List.find?, hne]
      exact find?_id_eq_of_mem hmem hrest

theorem getNode_of_mem {g : GraphSpec} {nd : NodeSpec} (hmem : nd ∈ nodesDict g) :
    getNode g nd.id = some nd :=
  find?_id_eq_of_mem hmem (nodesDict_pairwise g)

theorem mem_goalGateIds {g : GraphSpec} {n : String} :
    n ∈ goalGateIds g ↔ isGoalGateId g n = true := by
  constructor
  · intro hn
    obtain ⟨nd, hnd, rfl⟩ := List.mem_map.mp hn
    rcases List.mem_filter.mp hnd with ⟨hmem, hgate⟩
    simp only [isGoalGateId, getNode_of_mem hmem]
    exact hgate
  · intro hgg
    unfold isGoalGateId at hgg
    cases hget : getNode g n with
    | none => rw [hget] at hgg; simp at hgg
    | some nd =>
      rw [hget] at hgg
      have hmem : nd ∈ nodesDict g := List.mem_of_find?_eq_some hget
      have hid : nd.id = n := getNode_id hget
      subst hid
      exact List.mem_map.mpr ⟨nd, List.mem_filter.mpr ⟨hmem, hgg⟩, rfl⟩

theorem mem_addSet {l : List String} {x n : String} :
    n ∈ addSet l x ↔ n ∈ l ∨ n = x := by
  unfold addSet
  by_cases hc : l.contains x
  · have hx : x ∈ l := by simpa using hc
    rw [if_pos hc]
    constructor
    · exact Or.inl
    · rintro (h | rfl)
      · exact h
      · exact hx
  · rw [if_neg hc]
    simp

theorem applyOutcome_satisfied (node : NodeSpec) (o : Outcome) (s : EngineState) :
    (applyOutcome node o s).satisfied =
      if truthyOpt (node.attrs.lookup "goal_gate") = true ∧ o.status = .success then
        addSet s.satisfied node.id
      else s.satisfied := rfl

theorem applyOutcome_gateInv (g : GraphSpec) (node : NodeSpec) (o : Outcome)
    (s : EngineState) (hgn : getNode g node.id = some node)
    (hinv : GateInv g s) : GateInv g (applyOutcome node o s) := by
  intro n
  rw [applyOutcome_satisfied, applyOutcome_events]
  have hgg : isGoalGateId g node.id = truthyOpt (node.attrs.lookup "goal_gate") := by
    simp [isGoalGateId, hgn]
  constructor
  · intro hmem
    by_cases hc : truthyOpt (node.attrs.lookup "goal_gate") = true ∧ o.status = .success
    · rw [if_pos hc] at hmem
      rcases mem_addSet.mp hmem with hmem | rfl
      · obtain ⟨hgate, ev, hev, hevn, hevst⟩ := (hinv n).mp hmem
        exact ⟨hgate, ev, List.mem_append_left _ hev, hevn, hevst⟩
      · refine ⟨by rw [hgg]; exact hc.1, ⟨node.id, o.status, o.notes⟩, ?_, rfl, hc.2⟩
        exact List.mem_append_right _ (List.mem_singleton_self _)
    · rw [if_neg hc] at hmem
      obtain ⟨hgate, ev, hev, hevn, hevst⟩ := (hinv n).mp hmem
      exact ⟨hgate, ev, List.mem_append_left _ hev, hevn, hevst⟩
  · rintro ⟨hgate, ev, hev, hevn, hevst⟩
    rcases List.mem_append.mp hev with hev | hev
    · have hmem := (hinv n).mpr ⟨hgate, ev, hev, hevn, hevst⟩
      by_cases hc : truthyOpt (node.attrs.lookup "goal_gate") = true ∧ o.status = .success
      · rw [if_pos hc]
        exact mem_addSet.mpr (Or.inl hmem)
      · rw [if_neg hc]
        exact hmem
    · have hev' : ev = ⟨node.id, o.status, o.notes⟩ := List.mem_singleton.mp hev
      subst hev'
      have hn' : node.id = n := hevn
      have hst' : o.status = .success := hevst
      have hc : truthyOpt (node.attrs.lookup "goal_gate") = true ∧ o.status = .success := by
        refine ⟨?_, hst'⟩
        rw [← hgg, hn']
        exact hgate
      rw [if_pos hc]
      exact mem_addSet.mpr (Or.inr hn'.symm)

theorem step_preserves_gateInv (ec : CondEval) (g : GraphSpec) (h : HandlerFun)
    (exitId : String) (s : EngineState) (hinv : GateInv g s) :
    GateInv g (step ec g h exitId s).state := by
  cases hn : getNode g s.current with
  | none =>
    simp only [step, hn, StepRes.state]
    exact hinv
  | some node =>
    have hgn : getNode g node.id = some node := by
      rw [getNode_id hn]; exact hn
    have hinv₁ := applyOutcome_gateInv g node (h s.events.length node s.ctx g) s hgn hinv
    simp only [step, hn]
    split
    · split
      · simpa only [StepRes.state] using hinv₁
      · split
        · intro n
          simp only [StepRes.state, retryState_satisfied, retryState_events]
          exact hinv₁ n
        · intro n
          rw [(routePhase_state_fields ec g exitId node _ _).2.2,
              (routePhase_state_fields ec g exitId node _ _).2.1]
          exact hinv₁ n
    · intro n
      rw [(routePhase_state_fields ec g exitId node _ _).2.2,
          (routePhase_state_fields ec g exitId node _ _).2.1]
      exact hinv₁ n

theorem runLoop_ok_gate (ec : CondEval) (g : GraphSpec) (h : HandlerFun) (exitId : String) :
    ∀ (fuel : Nat) (s : EngineState) (r : RunResult), GateInv g s →
      runLoop ec g h exitId fuel s = .ok r →
      (r.goalGateSatisfied = true ↔
        ∀ n ∈ goalGateIds g, ∃ ev ∈ r.events, ev.node = n ∧ ev.status = StageStatus.success)
  | 0, s, r, _, hrun => by simp [runLoop] at hrun
  | fuel + 1, s, r, hinv, hrun => by
    have hnext := step_preserves_gateInv ec g h exitId s hinv
    simp only [runLoop] at hrun
    cases hstep : step ec g h exitId s with
    | retryLoop s' =>
      rw [hstep] at hrun hnext
      simp only [StepRes.state] at hnext
      exact runLoop_ok_gate ec g h exitId fuel s' r hnext hrun
    | routed s' =>
      rw [hstep] at hrun hnext
      simp only [StepRes.state] at hnext
      exact runLoop_ok_gate ec g h exitId fuel s' r hnext hrun
    | finished s' =>
      rw [hstep] at hrun hnext
      simp only [StepRes.state] at hnext
      have hr : mkRunResult g s' = r := by injection hrun
      subst hr
      simp only [mkRunResult]
      constructor
      · intro hall n hng
        have hmem : s'.satisfied.contains n = true := List.all_eq_true.mp hall n hng
        have hmem' : n ∈ s'.satisfied := by simpa using hmem
        exact ((hnext n).mp hmem').2
      · intro hev
        apply List.all_eq_true.mpr
        intro n hng
        have hgg := mem_goalGateIds.mp hng
        have hmem : n ∈ s'.satisfied := (hnext n).mpr ⟨hgg, hev n hng⟩
        simpa using hmem
    | fatal m s' => rw [hstep] at hrun; simp at hrun
    | keyErr i s' => rw [hstep] at hrun; simp at hrun
    | typeErr s' => rw [hstep] at hrun; simp at hrun

/-- C2: for every completed run, `goal_gate_satisfied` is true iff every
node with a truthy `goal_gate` attribute has at least one SUCCESS event
(i.e. reached SUCCESS in at least one of its executions). -/
theorem goal_gate_satisfied_iff (ec : CondEval) (g : GraphSpec) (h : HandlerFun)
    (fuel : Nat) (c₀ : Ctx) (r : RunResult)
    (hrun : run ec g h fuel c₀ = .ok r) :
    (r.goalGateSatisfied = true ↔
      ∀ n ∈ goalGateIds g, ∃ ev ∈ r.events, ev.node = n ∧
        ev.status = StageStatus.success) := by
  unfold run at hrun
  cases hst : startNode? g with
  | none => rw [hst] at hrun; simp at hrun
  | some st =>
    cases hex : exitNode? g with
    | none => rw [hst, hex] at hrun; simp at hrun
    | some ex =>
      rw [hst, hex] at hrun
      refine runLoop_ok_gate ec g h ex fuel (initState st (initCtx g c₀)) r ?_ hrun
      intro n
      simp [initState]

/-- Goal-gate fixture: `gated` carries `goal_gate=true`. -/
def gGate : GraphSpec :=
  ⟨[⟨"start", [("shape", .str "Mdiamond")]⟩,
    ⟨"gated", [("shape", .str "box"), ("goal_gate", .bool true)]⟩,
    ⟨"exitn", [("shape", .str "Msquare")]⟩],
   [⟨"start", "gated", []⟩, ⟨"gated", "exitn", []⟩], []⟩

/-- Witness for `goal_gate_satisfied_iff`: a completed run of `gGate`. -/
theorem goal_gate_satisfied_iff_witness :
    run ecTruthy gGate hOk 20 [] =
      .ok ⟨["start", "gated", "exitn"], true, [("graph.goal", .str "")],
        [⟨"start", .success, ""⟩, ⟨"gated", .success, ""⟩, ⟨"exitn", .success, ""⟩]⟩ ∧
    ((⟨["start", "gated", "exitn"], true, [("graph.goal", .str "")],
        [⟨"start", .success, ""⟩, ⟨"gated", .success, ""⟩, ⟨"exitn", .success, ""⟩]⟩ :
          RunResult).goalGateSatisfied = true ↔
      ∀ n ∈ goalGateIds gGate,
        ∃ ev ∈ (⟨["start", "gated", "exitn"], true, [("graph.goal", .str "")],
          [⟨"start", .success, ""⟩, ⟨"gated", .success, ""⟩, ⟨"exitn", .success, ""⟩]⟩ :
            RunResult).events, ev.node = n ∧ ev.status = StageStatus.success) :=
  ⟨by decide, goal_gate_satisfied_iff ecTruthy gGate hOk 20 [] _ (by decide)⟩

/-! ## Fatal routing aborts (C6) -/

theorem routePhase_fatal_msg (ec : CondEval) (g : GraphSpec) (exitId : String)
    (node : NodeSpec) (o : Outcome) (s₁ : EngineState) (msg : String) (t : EngineState)
    (hfat : routePhase ec g exitId node o s₁ = .fatal msg t) :
    msg = "No eligible outgoing edge from '" ++ node.id ++ "'" := by
  unfold routePhase at hfat
  by_cases hexit : node.id = exitId
  · rw [if_pos hexit] at hfat
    exact absurd hfat (by simp)
  · rw [if_neg hexit] at hfat
    cases hp : pickNextNode ec g node s₁.ctx o with
    | error m =>
      rw [hp] at hfat
      exact absurd hfat (by simp)
    | ok v =>
      cases v with
      | none =>
        rw [hp] at hfat
        injection hfat with h1 h2
        exact h1.symm
      | some nxt =>
        rw [hp] at hfat
        exact absurd hfat (by simp)

theorem step_fatal_msg (ec : CondEval) (g : GraphSpec) (h : HandlerFun)
    (exitId : String) (s : EngineState) (msg : String) (t : EngineState)
    (hfat : step ec g h exitId s = .fatal msg t) :
    ∃ nid, msg = "No eligible outgoing edge from '" ++ nid ++ "'" := by
  cases hn : getNode g s.current with
  | none =>
    simp only [step, hn] at hfat
    exact absurd hfat (by simp)
  | some node =>
    simp only [step, hn] at hfat
    refine ⟨node.id, ?_⟩
    split at hfat
    · split at hfat
      · exact absurd hfat (by simp)
      · split at hfat
        · exact absurd hfat (by simp)
        · exact routePhase_fatal_msg ec g exitId node _ _ msg t hfat
    · exact routePhase_fatal_msg ec g exitId node _ _ msg t hfat

theorem runLoop_fatal_msg (ec : CondEval) (g : GraphSpec) (h : HandlerFun)
    (exitId : String) :
    ∀ (fuel : Nat) (s : EngineState) (msg : String) (t : EngineState),
      runLoop ec g h exitId fuel s = .fatalRouting msg t →
      ∃ nid, msg = "No eligible outgoing edge from '" ++ nid ++ "'"
  | 0, s, msg, t, hrun => by simp [runLoop] at hrun
  | fuel + 1, s, msg, t, hrun => by
    simp only [runLoop] at hrun
    cases hstep : step ec g h exitId s with
    | retryLoop s' =>
      rw [hstep] at hrun
      exact runLoop_fatal_msg ec g h exitId fuel s' msg t hrun
    | routed s' =>
      rw [hstep] at hrun
      exact runLoop_fatal_msg ec g h exitId fuel s' msg t hrun
    | finished s' => rw [hstep] at hrun; simp at hrun
    | fatal m s' =>
      rw [hstep] at hrun
      injection hrun with h1 h2
      subst h1
      exact step_fatal_msg ec g h exitId s m s' hstep
    | keyErr i s' => rw [hstep] at hrun; simp at hrun
    | typeErr s' => rw [hstep] at hrun; simp at hrun

/-- C6 (amended): when no routing rule yields a next node the run aborts
with the fatal `RuntimeError` naming the offending node, and the caller
observes that message together with the caller-held `Context` as mutated up
to the abort — but only those: the locally accumulated `RunResult`
(completed-node list and event log) is not part of what the raise hands
back (see `run_abort_loses_event_log`). -/
theorem run_abort_observable (ec : CondEval) (g : GraphSpec) (h : HandlerFun)
    (fuel : Nat) (c₀ : Ctx) (msg : String) (s : EngineState)
    (hrun : run ec g h fuel c₀ = .fatalRouting msg s) :
    runObservable ec g h fuel c₀ = .raisedRuntime msg s.ctx ∧
    ∃ nid, msg = "No eligible outgoing edge from '" ++ nid ++ "'" := by
  constructor
  · unfold runObservable
    rw [hrun]
  · unfold run at hrun
    cases hst : startNode? g with
    | none => rw [hst] at hrun; simp at hrun
    | some st =>
      cases hex : exitNode? g with
      | none => rw [hst, hex] at hrun; simp at hrun
      | some ex =>
        rw [hst, hex] at hrun
        exact runLoop_fatal_msg ec g h ex fuel _ msg s hrun

/-- Dead-end fixture: `stuck` has no outgoing edge and is not the exit. -/
def gDead : GraphSpec :=
  ⟨[⟨"start", [("shape", .str "Mdiamond")]⟩,
    ⟨"stuck", [("shape", .str "box")]⟩,
    ⟨"exitn", [("shape", .str "Msquare")]⟩],
   [⟨"start", "stuck", []⟩], []⟩

/-- A handler that succeeds with notes "a". -/
def hNoteA : HandlerFun := fun _ _ _ _ => ⟨.success, "a", [], none, [], none⟩

/-- A handler that succeeds with notes "b". -/
def hNoteB : HandlerFun := fun _ _ _ _ => ⟨.success, "b", [], none, [], none⟩

/-- C6 counterexample: two aborted runs of `gDead` whose caller-observable
outcome (raised message plus caller-held context) is identical while their
internally accumulated event logs differ — so the event log is not
recoverable by the caller after the abort, refuting "prior progress
(completed nodes, context, event log) remains inspectable". -/
theorem run_abort_loses_event_log :
    runObservable ecTruthy gDead hNoteA 10 [] = runObservable ecTruthy gDead hNoteB 10 [] ∧
    runEvents (run ecTruthy gDead hNoteA 10 []) ≠
      runEvents (run ecTruthy gDead hNoteB 10 []) := by
  constructor
  · decide
  · decide

/-- Witness for `run_abort_observable` at the `gDead` abort. -/
theorem run_abort_observable_witness :
    run ecTruthy gDead hNoteA 10 [] =
      .fatalRouting "No eligible outgoing edge from 'stuck'"
        ⟨"stuck", [], [("graph.goal", .str "")],
         [⟨"start", .success, "a"⟩, ⟨"stuck", .success, "a"⟩],
         ["start", "stuck"], []⟩ ∧
    runObservable ecTruthy gDead hNoteA 10 [] =
      .raisedRuntime "No eligible outgoing edge from 'stuck'"
        [("graph.goal", .str "")] ∧
    ∃ nid, "No eligible outgoing edge from 'stuck'" =
      "No eligible outgoing edge from '" ++ nid ++ "'" := by
  refine ⟨by decide, ?_, ?_⟩
  · exact (run_abort_observable ecTruthy gDead hNoteA 10 []
      "No eligible outgoing edge from 'stuck'"
      ⟨"stuck", [], [("graph.goal", .str "")],
       [⟨"start", .success, "a"⟩, ⟨"stuck", .success, "a"⟩],
       ["start", "stuck"], []⟩ (by decide)).1
  · exact (run_abort_observable ecTruthy gDead hNoteA 10 []
      "No eligible outgoing edge from 'stuck'"
      ⟨"stuck", [], [("graph.goal", .str "")],
       [⟨"start", .success, "a"⟩, ⟨"stuck", .success, "a"⟩],
       ["start", "stuck"], []⟩ (by decide)).2

end Attractor
